import Mathlib

/-!
Shallow embedding of the `etherea` CHIP-8 interpreter (`src/lib.rs`) in Lean 4.

Modelling conventions:
* `u8` values are `Nat`s; every write that the source performs on a `u8`
  goes through `% 256` where the source's arithmetic would wrap
  (`wrapping_add`, `wrapping_sub`, `<<`, `*`).  `u16` values likewise use
  `% 65536`.
* The register array (`RegisterArray`, 16 cells) and the 4096-byte memory
  buffer are modelled as total maps `Nat → Nat`; the source indices used by
  the interpreter are always nibbles (`< 16`) resp. in-bounds addresses, so
  out-of-bounds reads (a Rust panic) are never exercised by the theorems.
* The display's `scratch_pixels` RGBA buffer only ever holds the two quads
  `[0xFF,0xFF,0xFF,0xFF]` (pixel on) and `[0,0,0,0]` (pixel off) — `flip`
  writes nothing else and `clear` zeroes it — so the grid is modelled as a
  boolean map `Nat → Nat → Bool`.
* Effectful opcodes (key input, random) receive their environment as an
  explicit argument; a cycle returns a `StepResult` that is `ok`, `fatal`
  (the source's `std::process::exit(1)` paths) or `blocked` (the source's
  `get_key` busy-loop when no key ever arrives).
-/

set_option maxRecDepth 100000

namespace Etherea

/-- Pointwise update of a total map, used to model writes into the
register array and the memory buffer. -/
def upd (f : Nat → Nat) (k v : Nat) : Nat → Nat :=
  fun j => if j = k then v else f j

/-- Mirrors `bits::set(n, bits)` from `src/lib.rs`: whether the bit at
index `n` (least-significant first) of `bits` is set. -/
def bits.isSet (n bits : Nat) : Bool :=
  Nat.land bits (1 <<< n) != 0

/-- Mirrors `bits::recombine(upper, lower)`: rebuild an 8-bit value from
two 4-bit nibbles, `(upper << 4) | lower` in `u8` arithmetic. -/
def bits.recombine (upper lower : Nat) : Nat :=
  Nat.lor ((upper <<< 4) % 256) lower

/-- Mirrors the free function `digit(i, n)`: the decimal digit of `n` at
index `i`, least-significant first. -/
def digit (i n : Nat) : Nat :=
  (n / 10 ^ i) % 10

/-- Mirrors `u16::to_be_bytes` for a value `v < 65536`: big-endian byte
pair. -/
def toBeBytes (v : Nat) : Nat × Nat :=
  (v >>> 8 % 256, v % 256)

/-- Mirrors `Instruction::from(inst: u16)`: split each big-endian byte
into its high nibble `(b & 0xF0) >> 4` and low nibble `b & 0xF`. -/
def Instruction.nibblesOf (inst : Nat) : List Nat :=
  let b := toBeBytes inst
  [Nat.land b.1 0xF0 >>> 4, Nat.land b.1 0xF,
   Nat.land b.2 0xF0 >>> 4, Nat.land b.2 0xF]

/-- Mirrors `u16::from_be_bytes([a, b])`. -/
def fromBeBytes (a b : Nat) : Nat :=
  a * 256 + b

/-- The CHIP-8 delay and sound timers (`struct Timers`). -/
structure Timers where
  delay : Nat
  sound : Nat
  deriving Repr, DecidableEq

/-- Mirrors `Timers::update`: decrement each timer by one if it is
greater than zero. -/
def Timers.update (t : Timers) : Timers :=
  { delay := if t.delay > 0 then t.delay - 1 else t.delay,
    sound := if t.sound > 0 then t.sound - 1 else t.sound }

/-- The display's pixel grid: `g x y = true` means the RGBA quad at
`(x, y)` in `scratch_pixels` is `[0xFF,0xFF,0xFF,0xFF]` (pixel on). -/
def Grid : Type := Nat → Nat → Bool

namespace Display

/-- Mirrors `Display::WIDTH`. -/
def WIDTH : Nat := 64

/-- Mirrors `Display::HEIGHT`. -/
def HEIGHT : Nat := 32

/-- Mirrors `Display::flip(x, y, rgba)` with `rgba = [0xFF; 4]` (the only
value the interpreter passes): if the current quad is white, write black,
otherwise write the white quad; return whether the written quad is black
(i.e. a previously-on pixel was turned off). -/
def flip (g : Grid) (x y : Nat) : Grid × Bool :=
  let cur := g x y
  let pix : Bool := if cur then false else true
  (fun a b => if a = x ∧ b = y then pix else g a b, pix == false)

/-- Mirrors `Display::clear`: reset `scratch_pixels` to all zeroes. -/
def clear : Grid := fun _ _ => false

end Display

/-- The interpreter state (`struct Interpreter`), minus the fields that
carry no machine state (`ips`; the `Arc`/`RwLock` wrappers). -/
structure Interp where
  i : Nat
  pc : Nat
  stack : List Nat
  memory : Nat → Nat
  display : Option Grid
  timers : Timers
  registers : Nat → Nat

namespace Interp

/-- Mirrors `Interpreter::MEMORY_SIZE`. -/
def MEMORY_SIZE : Nat := 4096

/-- Mirrors `Interpreter::MEMORY_OFFSET`. -/
def MEMORY_OFFSET : Nat := 0x200

/-- Mirrors `Interpreter::jump(n1, n2, n3)`:
`pc ← usize::from_be_bytes([0,…,0, n1, recombine(n2, n3)])`. -/
def jump (s : Interp) (n1 n2 n3 : Nat) : Interp :=
  { s with pc := n1 * 256 + bits.recombine n2 n3 }

/-- Mirrors `Interpreter::call_subroutine`: push the current `pc`, then
jump to the 12-bit address.  `Vec::push`/`Vec::pop` operate on the
vector's end, so the list holds the return addresses top-first. -/
def call_subroutine (s : Interp) (n1 n2 n3 : Nat) : Interp :=
  { s with stack := s.pc :: s.stack, pc := n1 * 256 + bits.recombine n2 n3 }

/-- Mirrors `Interpreter::subroutine_return` on a non-empty stack: pop
the stack into `pc` (the empty-stack `unwrap` panic is handled at the
dispatch level). -/
def subroutine_return (s : Interp) (top : Nat) (rest : List Nat) : Interp :=
  { s with pc := top, stack := rest }

/-- Mirrors `Interpreter::skip_vx`: compare `registers[register]` with
`recombine(n1, n2)` and advance `pc` by 2 on (in)equality. -/
def skip_vx (s : Interp) (register n1 n2 : Nat) (equality : Bool) : Interp :=
  let vx := s.registers register
  let x := bits.recombine n1 n2
  if (equality ∧ vx = x) ∨ (¬equality ∧ vx ≠ x) then
    { s with pc := s.pc + 2 }
  else s

/-- Mirrors `Interpreter::skip_vxy`: compare two registers and advance
`pc` by 2 on (in)equality. -/
def skip_vxy (s : Interp) (vx vy : Nat) (equality : Bool) : Interp :=
  let a := s.registers vx
  let b := s.registers vy
  if (equality ∧ a = b) ∨ (¬equality ∧ a ≠ b) then
    { s with pc := s.pc + 2 }
  else s

/-- Mirrors `Interpreter::set` (8XY0). -/
def set (s : Interp) (vx vy : Nat) : Interp :=
  { s with registers := upd s.registers vx (s.registers vy) }

/-- Mirrors `Interpreter::or` (8XY1). -/
def or (s : Interp) (vx vy : Nat) : Interp :=
  { s with registers := upd s.registers vx (Nat.lor (s.registers vx) (s.registers vy)) }

/-- Mirrors `Interpreter::and` (8XY2). -/
def and (s : Interp) (vx vy : Nat) : Interp :=
  { s with registers := upd s.registers vx (Nat.land (s.registers vx) (s.registers vy)) }

/-- Mirrors `Interpreter::xor` (8XY3). -/
def xor (s : Interp) (vx vy : Nat) : Interp :=
  { s with registers := upd s.registers vx (Nat.xor (s.registers vx) (s.registers vy)) }

/-- Mirrors `Interpreter::add` (8XY4): widen both operands, store the
wrapping 8-bit sum in `vx`, then set `VF` from the widened sum. -/
def add (s : Interp) (vx vy : Nat) : Interp :=
  let x := s.registers vx
  let y := s.registers vy
  let r1 := upd s.registers vx ((s.registers vx + s.registers vy) % 256)
  { s with registers := upd r1 0xF (if x + y > 255 then 1 else 0) }

/-- Mirrors `u8::wrapping_sub` for operands below 256. -/
def wsub (a b : Nat) : Nat :=
  (a % 256 + 256 - b % 256) % 256

/-- Mirrors `Interpreter::sub` (8XY5 / 8XY7): read `lhs`/`rhs`, write the
borrow flag to `VF` first, then the wrapping difference to `vx`. -/
def sub (s : Interp) (vx lhs rhs : Nat) : Interp :=
  let l := s.registers lhs
  let r := s.registers rhs
  let r1 := upd s.registers 0xF (if l > r then 1 else 0)
  { s with registers := upd r1 vx (wsub l r) }

/-- Mirrors `Interpreter::shift_left` (8XYE): record bit 7 of the
register, shift it left in place (wrapping in `u8`), then write the
recorded bit to `VF`. -/
def shift_left (s : Interp) (vx : Nat) : Interp :=
  let shifted := bits.isSet 7 (s.registers vx)
  let r1 := upd s.registers vx ((s.registers vx <<< 1) % 256)
  { s with registers := upd r1 0xF (if shifted then 1 else 0) }

/-- Mirrors `Interpreter::shift_right` (8XY6): record bit 0 of the
register, shift it right in place, then write the recorded bit to
`VF`. -/
def shift_right (s : Interp) (vx : Nat) : Interp :=
  let shifted := bits.isSet 0 (s.registers vx)
  let r1 := upd s.registers vx (s.registers vx >>> 1)
  { s with registers := upd r1 0xF (if shifted then 1 else 0) }

/-- Mirrors `Interpreter::random` (CXNN) with the byte drawn from
`thread_rng` passed in as `r`. -/
def random (s : Interp) (vx n1 n2 r : Nat) : Interp :=
  let address := bits.recombine n1 n2
  { s with registers := upd s.registers vx (Nat.land address (r % 256)) }

/-- Mirrors `Interpreter::timer_to_vx` (FX07). -/
def timer_to_vx (s : Interp) (vx : Nat) : Interp :=
  { s with registers := upd s.registers vx s.timers.delay }

/-- Mirrors `Interpreter::vx_to_timer` (FX15 / FX18). -/
def vx_to_timer (s : Interp) (vx : Nat) (delay : Bool) : Interp :=
  let value := s.registers vx
  if delay then { s with timers := { s.timers with delay := value } }
  else { s with timers := { s.timers with sound := value } }

/-- Mirrors `Interpreter::add_to_index` (FX1E): `i += u16::from(VX)`
(16-bit wrapping), then set `VF` to 1 only when the new index exceeds
`0x1000` — `VF` is left untouched otherwise. -/
def add_to_index (s : Interp) (vx : Nat) : Interp :=
  let s1 := { s with i := (s.i + s.registers vx % 256) % 65536 }
  if s1.i > 0x1000 then
    { s1 with registers := upd s1.registers 0xF 1 }
  else s1

/-- Mirrors `Interpreter::jump_with_offset` (BNNN). -/
def jump_with_offset (s : Interp) (n1 n2 n3 : Nat) : Interp :=
  { s with pc := fromBeBytes n1 (bits.recombine n2 n3) + s.registers 0x0 }

/-- Modelled from the spec: the font module `src/font.rs` is not in the
sources; per the spec's data model the built-in font occupies bytes
`[0x50, 0x9F]` of memory (16 glyphs of 5 bytes), so
`font::MEMORY_RANGE.start()` is `0x50`. -/
def fontBase : Nat := 0x50

/-- Mirrors `Interpreter::font_character` (FX29):
`i ← start + u16::from(c * 5)` where `c * 5` is computed on the full
register byte in `u8` arithmetic (wrapping), without masking `c` to its
low nibble. -/
def font_character (s : Interp) (vx : Nat) : Interp :=
  let c := s.registers vx
  { s with i := fontBase + (c * 5) % 256 }

/-- Mirrors `Interpreter::conversion` (FX33): write the three decimal
digits of `VX` to `memory[i..i+3]`, most significant first. -/
def conversion (s : Interp) (vx : Nat) : Interp :=
  let x := s.registers vx
  let m1 := upd s.memory s.i (digit 2 x)
  let m2 := upd m1 (s.i + 1) (digit 1 x)
  { s with memory := upd m2 (s.i + 2) (digit 0 x) }

/-- Mirrors `Interpreter::store_to_memory` (FX55): copy registers
`0..=vx` into `memory[i..i + vx + 1]`. -/
def store_to_memory (s : Interp) (vx : Nat) : Interp :=
  { s with memory := fun a =>
      if s.i ≤ a ∧ a < s.i + (vx + 1) then s.registers (a - s.i)
      else s.memory a }

/-- Mirrors `Interpreter::load_from_memory` (FX65): copy
`memory[i..i + vx + 1]` into registers `0..=vx`. -/
def load_from_memory (s : Interp) (vx : Nat) : Interp :=
  { s with registers := fun r =>
      if r ≤ vx then s.memory (s.i + r) else s.registers r }

/-- Mirrors `Interpreter::set_register` (6XNN). -/
def set_register (s : Interp) (register n1 n2 : Nat) : Interp :=
  { s with registers := upd s.registers register (bits.recombine n1 n2) }

/-- Mirrors `Interpreter::add_to_register` (7XNN): wrapping 8-bit add of
the immediate, no flag. -/
def add_to_register (s : Interp) (register n1 n2 : Nat) : Interp :=
  { s with registers := upd s.registers register ((s.registers register + bits.recombine n1 n2) % 256) }

/-- Mirrors `Interpreter::set_memory_ptr` (ANNN). -/
def set_memory_ptr (s : Interp) (n1 n2 n3 : Nat) : Interp :=
  { s with i := fromBeBytes n1 (bits.recombine n2 n3) }

/-- Inner loop of `Interpreter::draw_sprite` — `for (n, x) in (x..x+8).enumerate()`.
`fuel` counts the remaining iterations of the 8-iteration range, `n` is the
current enumeration index (pixel column `x + n`).  A set sprite bit
(`bits::set(7 - n, sprite)`) flips the pixel and records a collision in the
`vf` accumulator; the loop breaks after handling a pixel in the rightmost
column (`x + n ≥ WIDTH - 1`). -/
def drawRowAux (sprite x y : Nat) : Nat → Nat → Grid → Nat → Grid × Nat
  | 0, _, g, vf => (g, vf)
  | fuel + 1, n, g, vf =>
    let isOn := bits.isSet (7 - n) sprite
    let p :=
      if isOn then
        let q := Display.flip g (x + n) y
        (q.1, if q.2 then 1 else vf)
      else (g, vf)
    if x + n ≥ Display.WIDTH - 1 then p
    else drawRowAux sprite x y fuel (n + 1) p.1 p.2

/-- Outer loop of `Interpreter::draw_sprite` — `for (idx, y) in (y..y+height).enumerate()`.
Row `idx` uses the sprite byte `memory[i + idx]` and pixel row `y0 + idx`;
the loop breaks after handling a row on the bottom edge
(`y0 + idx ≥ HEIGHT - 1`). -/
def drawRowsAux (mem : Nat → Nat) (i x y0 : Nat) : Nat → Nat → Grid → Nat → Grid × Nat
  | 0, _, g, vf => (g, vf)
  | fuel + 1, idx, g, vf =>
    let sprite := mem (i + idx)
    let p := drawRowAux sprite x (y0 + idx) 8 0 g vf
    if y0 + idx ≥ Display.HEIGHT - 1 then p
    else drawRowsAux mem i x y0 fuel (idx + 1) p.1 p.2

/-- Mirrors `Interpreter::draw_sprite` (DXYN) on an attached display grid
`g`: reduce the start coordinates modulo the grid size, clear `VF`, run
the row loop (which accumulates the collision flag), and return the
updated interpreter together with the drawn grid. -/
def draw_sprite (s : Interp) (g : Grid) (vx vy height : Nat) : Interp × Grid :=
  let x := s.registers vx % Display.WIDTH
  let y := s.registers vy % Display.HEIGHT
  let p := drawRowsAux s.memory s.i x y height 0 g 0
  ({ s with registers := upd s.registers 0xF p.2 }, p.1)

/-- Mirrors `Interpreter::get_key` (FX0A) when a key event `k` (already
mapped through `input::KEYMAP`) is available: store it in `VX`.  The
no-event case (the source's busy wait) is handled at the dispatch
level. -/
def get_key (s : Interp) (vx k : Nat) : Interp :=
  { s with registers := upd s.registers vx k }

/-- Mirrors `Interpreter::skip_key` (EX9E / EXA1) when the bounded
100 ms wait yielded the mapped key event `k`: advance `pc` by 2 when the
register matches (for EX9E) or differs (for EXA1). -/
def skip_key (s : Interp) (vx k : Nat) (press : Bool) : Interp :=
  if press ∧ s.registers vx = k then { s with pc := s.pc + 2 }
  else if ¬press ∧ s.registers vx ≠ k then { s with pc := s.pc + 2 }
  else s

/-- Mirrors `Interpreter::load_rom`: reset index, program counter,
stack, memory, timers and registers; install the font at
`[0x50, 0x9F]` (its bytes are a parameter since `src/font.rs` is not in
the sources) and copy the ROM bytes in at `MEMORY_OFFSET`. -/
def load_rom (s : Interp) (font : Nat → Nat) (rom : List Nat) : Interp :=
  { s with
    i := 0,
    pc := MEMORY_OFFSET,
    stack := [],
    timers := ⟨0, 0⟩,
    registers := fun _ => 0,
    memory := fun a =>
      if MEMORY_OFFSET ≤ a ∧ a < MEMORY_OFFSET + rom.length then rom.getD (a - MEMORY_OFFSET) 0
      else if 0x50 ≤ a ∧ a ≤ 0x9F then font (a - 0x50)
      else 0 }

end Interp

/-- The decoded opcode: one constructor per arm of the `match` in
`Interpreter::execute`, carrying the nibbles the arm binds. -/
inductive Op where
  | clear
  | jump (n1 n2 n3 : Nat)
  | subroutineReturn
  | callSubroutine (n1 n2 n3 : Nat)
  | skipVx (register n1 n2 : Nat) (equality : Bool)
  | skipVxy (vx vy : Nat) (equality : Bool)
  | setRegister (register n1 n2 : Nat)
  | addToRegister (register n1 n2 : Nat)
  | setR (x y : Nat)
  | orR (x y : Nat)
  | andR (x y : Nat)
  | xorR (x y : Nat)
  | addR (x y : Nat)
  | subR (vx lhs rhs : Nat)
  | shiftRight (x : Nat)
  | shiftLeft (x : Nat)
  | setMemoryPtr (n1 n2 n3 : Nat)
  | jumpWithOffset (n1 n2 n3 : Nat)
  | randomR (x n1 n2 : Nat)
  | drawSpriteOp (vx vy height : Nat)
  | skipKey (vx : Nat) (press : Bool)
  | timerToVx (x : Nat)
  | vxToTimer (x : Nat) (delay : Bool)
  | addToIndex (x : Nat)
  | getKey (vx : Nat)
  | fontCharacter (vx : Nat)
  | conversion (vx : Nat)
  | storeToMemory (vx : Nat)
  | loadFromMemory (vx : Nat)
  deriving Repr, DecidableEq

/-- The `match inst.nibbles[..]` dispatch table of `Interpreter::execute`,
arm for arm and in source order (the arms are mutually disjoint, so the
order is immaterial); each arm's literal pattern is rendered as the
guard of an `if`, with the arm's binders taken from `[a, b, c, d]`.  The
wildcard arm (the fatal "unknown opcode" path) is `none`. -/
def decodeOp : List Nat → Option Op
  | [a, b, c, d] =>
    if a = 0 ∧ b = 0 ∧ c = 0xE ∧ d = 0 then some .clear
    else if a = 1 then some (.jump b c d)
    else if a = 0 ∧ b = 0 ∧ c = 0xE ∧ d = 0xE then some .subroutineReturn
    else if a = 2 then some (.callSubroutine b c d)
    else if a = 3 then some (.skipVx b c d true)
    else if a = 4 then some (.skipVx b c d false)
    else if a = 5 ∧ d = 0 then some (.skipVxy b c true)
    else if a = 9 ∧ d = 0 then some (.skipVxy b c false)
    else if a = 6 then some (.setRegister b c d)
    else if a = 7 then some (.addToRegister b c d)
    else if a = 8 ∧ d = 0 then some (.setR b c)
    else if a = 8 ∧ d = 1 then some (.orR b c)
    else if a = 8 ∧ d = 2 then some (.andR b c)
    else if a = 8 ∧ d = 3 then some (.xorR b c)
    else if a = 8 ∧ d = 4 then some (.addR b c)
    else if a = 8 ∧ d = 5 then some (.subR b b c)
    else if a = 8 ∧ d = 7 then some (.subR b c b)
    else if a = 8 ∧ d = 6 then some (.shiftRight b)
    else if a = 8 ∧ d = 0xE then some (.shiftLeft b)
    else if a = 0xA then some (.setMemoryPtr b c d)
    else if a = 0xB then some (.jumpWithOffset b c d)
    else if a = 0xC then some (.randomR b c d)
    else if a = 0xD then some (.drawSpriteOp b c d)
    else if a = 0xE ∧ c = 0x9 ∧ d = 0xE then some (.skipKey b true)
    else if a = 0xE ∧ c = 0xA ∧ d = 0x1 then some (.skipKey b false)
    else if a = 0xF ∧ c = 0 ∧ d = 7 then some (.timerToVx b)
    else if a = 0xF ∧ c = 1 ∧ d = 5 then some (.vxToTimer b true)
    else if a = 0xF ∧ c = 1 ∧ d = 8 then some (.vxToTimer b false)
    else if a = 0xF ∧ c = 0x1 ∧ d = 0xE then some (.addToIndex b)
    else if a = 0xF ∧ c = 0x0 ∧ d = 0xA then some (.getKey b)
    else if a = 0xF ∧ c = 2 ∧ d = 9 then some (.fontCharacter b)
    else if a = 0xF ∧ c = 3 ∧ d = 3 then some (.conversion b)
    else if a = 0xF ∧ c = 5 ∧ d = 5 then some (.storeToMemory b)
    else if a = 0xF ∧ c = 6 ∧ d = 5 then some (.loadFromMemory b)
    else none
  | _ => none

/-- The environment an instruction may consume: the key event a bounded
`skip_key` wait yields (`none` = 100 ms timeout), the key event a
blocking `get_key` wait eventually yields (`none` = no key ever
arrives), and the byte drawn from the random source.  Key events carry
the CHIP-8 code already mapped through `input::KEYMAP`. -/
structure Env where
  key : Option Nat
  blockKey : Option Nat
  rand : Nat

/-- A fatal condition: one of the `std::process::exit(1)` paths of the
interpreter. -/
inductive Err where
  | unknownOpcode (nibbles : List Nat)
  | noDisplay
  | emptyStack
  deriving Repr, DecidableEq

/-- The observable outcome of executing one decoded instruction. -/
inductive StepResult where
  | ok (s : Interp)
  | fatal (e : Err)
  | blocked

/-- The handler call performed by the matched arm of
`Interpreter::execute`, including the fatal paths taken inside handlers
(`get_display_mut` with no display attached; `stack.pop().unwrap()` on an
empty stack) and the suspension of a `get_key` that never receives an
event. -/
def executeOp (env : Env) (s : Interp) : Op → StepResult
  | .clear =>
    match s.display with
    | none => .fatal .noDisplay
    | some _ => .ok { s with display := some Display.clear }
  | .jump n1 n2 n3 => .ok (s.jump n1 n2 n3)
  | .subroutineReturn =>
    match s.stack with
    | [] => .fatal .emptyStack
    | top :: rest => .ok (s.subroutine_return top rest)
  | .callSubroutine n1 n2 n3 => .ok (s.call_subroutine n1 n2 n3)
  | .skipVx register n1 n2 equality => .ok (s.skip_vx register n1 n2 equality)
  | .skipVxy vx vy equality => .ok (s.skip_vxy vx vy equality)
  | .setRegister register n1 n2 => .ok (s.set_register register n1 n2)
  | .addToRegister register n1 n2 => .ok (s.add_to_register register n1 n2)
  | .setR x y => .ok (s.set x y)
  | .orR x y => .ok (s.or x y)
  | .andR x y => .ok (s.and x y)
  | .xorR x y => .ok (s.xor x y)
  | .addR x y => .ok (s.add x y)
  | .subR vx lhs rhs => .ok (s.sub vx lhs rhs)
  | .shiftRight x => .ok (s.shift_right x)
  | .shiftLeft x => .ok (s.shift_left x)
  | .setMemoryPtr n1 n2 n3 => .ok (s.set_memory_ptr n1 n2 n3)
  | .jumpWithOffset n1 n2 n3 => .ok (s.jump_with_offset n1 n2 n3)
  | .randomR x n1 n2 => .ok (s.random x n1 n2 env.rand)
  | .drawSpriteOp vx vy height =>
    match s.display with
    | none => .fatal .noDisplay
    | some g =>
      let p := s.draw_sprite g vx vy height
      .ok { p.1 with display := some p.2 }
  | .skipKey vx press =>
    match env.key with
    | none => .ok s
    | some k => .ok (s.skip_key vx k press)
  | .timerToVx x => .ok (s.timer_to_vx x)
  | .vxToTimer x delay => .ok (s.vx_to_timer x delay)
  | .addToIndex x => .ok (s.add_to_index x)
  | .getKey vx =>
    match env.blockKey with
    | none => .blocked
    | some k => .ok (s.get_key vx k)
  | .fontCharacter vx => .ok (s.font_character vx)
  | .conversion vx => .ok (s.conversion vx)
  | .storeToMemory vx => .ok (s.store_to_memory vx)
  | .loadFromMemory vx => .ok (s.load_from_memory vx)

/-- Mirrors `Interpreter::fetch`: read the big-endian word at `pc` and
advance `pc` by 2. -/
def Interp.fetch (s : Interp) : Nat × Interp :=
  (fromBeBytes (s.memory s.pc) (s.memory (s.pc + 1)), { s with pc := s.pc + 2 })

/-- Execute one already-fetched 16-bit word: decode it into nibbles and
dispatch; an unmatched nibble pattern is the fatal unknown-opcode path,
surfacing the offending pattern. -/
def executeWord (env : Env) (s : Interp) (w : Nat) : StepResult :=
  match decodeOp (Instruction.nibblesOf w) with
  | none => .fatal (.unknownOpcode (Instruction.nibblesOf w))
  | some op => executeOp env s op

/-- One iteration of the fetch–decode–execute loop in
`Interpreter::execute`. -/
def stepCycle (env : Env) (s : Interp) : StepResult :=
  let p := s.fetch
  executeWord env p.2 p.1

/-- Run `n` fetch–decode–execute cycles, stopping at the first fatal or
blocked outcome. -/
def runN (env : Env) : Nat → Interp → StepResult
  | 0, s => .ok s
  | n + 1, s =>
    match stepCycle env s with
    | .ok s' => runN env n s'
    | r => r

/-- Mirrors `Interpreter::new` / `Default::default()`: every field
zeroed, no display attached. -/
def Interp.new : Interp :=
  { i := 0, pc := 0, stack := [], memory := fun _ => 0, display := none,
    timers := ⟨0, 0⟩, registers := fun _ => 0 }

/-- Written from the spec's words for the draw opcode: XOR composition of
a set sprite bit with the target pixel — off becomes on, on becomes
off. -/
def xorFlip (g : Grid) (x y : Nat) : Grid :=
  fun a b => if a = x ∧ b = y then !(g x y) else g a b

/-- Written from the spec's words, one sprite row: bit `n` of the sprite
byte (most-significant first, so bit index `7 - n`) targets pixel column
`x0 + n`; a set bit XOR-flips the pixel only when the column is inside
the grid (drawing stops at the right edge, with no wraparound); the
collision accumulator `c` becomes true when a previously-on pixel is
flipped off. -/
def drawRowSpec (sprite x0 y : Nat) : Nat → Nat → Grid → Bool → Grid × Bool
  | 0, _, g, c => (g, c)
  | fuel + 1, n, g, c =>
    if x0 + n < Display.WIDTH ∧ bits.isSet (7 - n) sprite then
      drawRowSpec sprite x0 y fuel (n + 1) (xorFlip g (x0 + n) y) (c || g (x0 + n) y)
    else drawRowSpec sprite x0 y fuel (n + 1) g c

/-- Written from the spec's words, the sprite rows: row `idx` reads the
sprite byte at `memory[i + idx]` and targets pixel row `y0 + idx`; a row
is drawn only when it is inside the grid (drawing stops at the bottom
edge, with no wraparound). -/
def drawRowsSpec (mem : Nat → Nat) (i x0 y0 : Nat) : Nat → Nat → Grid → Bool → Grid × Bool
  | 0, _, g, c => (g, c)
  | fuel + 1, idx, g, c =>
    if y0 + idx < Display.HEIGHT then
      let p := drawRowSpec (mem (i + idx)) x0 (y0 + idx) 8 0 g c
      drawRowsSpec mem i x0 y0 fuel (idx + 1) p.1 p.2
    else drawRowsSpec mem i x0 y0 fuel (idx + 1) g c

/-- Written from the spec's words for the whole draw opcode: start
coordinates are the register values reduced modulo the grid width and
height, every set sprite bit inside the grid XOR-flips its pixel, and the
result's flag is 1 exactly when some pixel was flipped from on to off. -/
def drawSpriteSpec (mem : Nat → Nat) (i vxv vyv height : Nat) (g : Grid) : Grid × Nat :=
  let x0 := vxv % Display.WIDTH
  let y0 := vyv % Display.HEIGHT
  let p := drawRowsSpec mem i x0 y0 height 0 g false
  (p.1, if p.2 then 1 else 0)

/-- The defined opcode shapes, written from the spec's opcode table
(§4.2): a four-nibble pattern is known exactly when it falls under one of
the listed instruction families. -/
def knownShape : List Nat → Bool
  | [a, b, c, d] =>
    (a == 0 && b == 0 && c == 0xE && (d == 0 || d == 0xE)) ||
    (a == 1 || a == 2 || a == 3 || a == 4 || a == 6 || a == 7) ||
    (a == 0xA || a == 0xB || a == 0xC || a == 0xD) ||
    ((a == 5 || a == 9) && d == 0) ||
    (a == 8 && (d ≤ 7 || d == 0xE)) ||
    (a == 0xE && ((c == 9 && d == 0xE) || (c == 0xA && d == 1))) ||
    (a == 0xF &&
      ((c == 0 && d == 7) || (c == 1 && d == 5) || (c == 1 && d == 8) ||
       (c == 1 && d == 0xE) || (c == 0 && d == 0xA) || (c == 2 && d == 9) ||
       (c == 3 && d == 3) || (c == 5 && d == 5) || (c == 6 && d == 5)))
  | _ => false

/-- The spec's round-trip recombination: the four decoded nibbles are
recombined pairwise into two bytes via `bits::recombine`, and the bytes
back into a 16-bit word. -/
def recombineNibbles : List Nat → Nat
  | [n0, n1, n2, n3] => fromBeBytes (bits.recombine n0 n1) (bits.recombine n2 n3)
  | _ => 0

/-- The interpreter as `run` builds it for the claim C7 scenario: display
attached, then the two-byte ROM `jump(0x200)` loaded.  The font bytes
(absent from the sources) stay a parameter. -/
def initSelfJump (font : Nat → Nat) : Interp :=
  Interp.load_rom { Interp.new with display := some Display.clear } font [0x12, 0x00]

/-- Zero the register file, the intermediate step of the claim C9
store/load round-trip scenario. -/
def Interp.zeroRegs (s : Interp) : Interp :=
  { s with registers := fun _ => 0 }

/-- Concrete state for the C1 counterexample: index register `0x0FFE`,
`V0 = 1`, and the flag register currently 1. -/
def stC1 : Interp :=
  { i := 0x0FFE, pc := 0x200, stack := [], memory := fun _ => 0, display := none,
    timers := ⟨0, 0⟩, registers := fun k => if k = 0 then 1 else if k = 15 then 1 else 0 }

/-- Concrete state for the C1 witness: index register `0x0FFE`, `V0 = 5`,
flag register 0. -/
def stC1w : Interp :=
  { i := 0x0FFE, pc := 0x200, stack := [], memory := fun _ => 0, display := none,
    timers := ⟨0, 0⟩, registers := fun k => if k = 0 then 5 else 0 }

/-- Concrete state for the C2 counterexample: `V0 = 0x1A` (low nibble
`0xA`, high nibble set). -/
def stC2 : Interp :=
  { i := 0, pc := 0x200, stack := [], memory := fun _ => 0, display := none,
    timers := ⟨0, 0⟩, registers := fun k => if k = 0 then 0x1A else 0 }

/-- Concrete state for the C2 witness: `V0 = 0xA`. -/
def stC2w : Interp :=
  { i := 0, pc := 0x200, stack := [], memory := fun _ => 0, display := none,
    timers := ⟨0, 0⟩, registers := fun k => if k = 0 then 0xA else 0 }

/-- Concrete state for the C4 witness: `V0 = 250`, `V1 = 10`. -/
def stC4 : Interp :=
  { i := 0, pc := 0x200, stack := [], memory := fun _ => 0, display := none,
    timers := ⟨0, 0⟩, registers := fun k => if k = 0 then 250 else if k = 1 then 10 else 0 }

/-- Concrete state for the C3 double-draw scenario: all registers zero
(sprite position (0, 0)), index register pointing at an all-set sprite
byte `0xFF`. -/
def drawDemo : Interp :=
  { i := 0x200, pc := 0x200, stack := [], memory := fun a => if a = 0x200 then 0xFF else 0,
    display := some Display.clear, timers := ⟨0, 0⟩, registers := fun _ => 0 }

/-- An environment with no key events pending and random byte 0, for
witnesses of claims that never consult the environment. -/
def envW : Env := ⟨none, none, 0⟩

/-- Concrete state for the C9 witness: index register `0x300`, register
`Vk = 10k + 7`. -/
def stC9 : Interp :=
  { i := 0x300, pc := 0x200, stack := [], memory := fun _ => 0, display := none,
    timers := ⟨0, 0⟩, registers := fun k => if k < 16 then 10 * k + 7 else 0 }

/-- Concrete state for the C10 witness: flag register `VF = 200`,
`V1 = 100`, `V2 = 5`, `V3 = 10`. -/
def stC10 : Interp :=
  { i := 0, pc := 0x200, stack := [], memory := fun _ => 0, display := none,
    timers := ⟨0, 0⟩,
    registers := fun k =>
      if k = 15 then 200 else if k = 1 then 100 else if k = 2 then 5 else if k = 3 then 10 else 0 }


/-- High nibble of a byte: masking with `0xF0` and shifting right by 4 is
division by 16. -/
theorem land_hi_div : ∀ b < 256, Nat.land b 0xF0 >>> 4 = b / 16 := by decide

/-- Low nibble of a byte: masking with `0xF` is the remainder mod 16. -/
theorem land_lo_mod : ∀ b < 256, Nat.land b 0xF = b % 16 := by decide

/-- On nibbles, `bits::recombine` is `upper * 16 + lower`. -/
theorem recombine_eq : ∀ u < 16, ∀ l < 16, bits.recombine u l = u * 16 + l := by decide

set_option maxHeartbeats 2000000 in
/-- A four-nibble pattern outside the defined opcode shapes decodes to the
wildcard arm. -/
theorem decodeOp_none_of_unknown (a b c d : Nat) (ha : a < 16)
    (h : knownShape [a, b, c, d] = false) : decodeOp [a, b, c, d] = none := by
  interval_cases a <;>
    (simp only [knownShape, Bool.or_eq_false_iff, Bool.and_eq_false_iff,
       beq_eq_false_iff_ne, ne_eq, decide_eq_false_iff_not] at h <;>
     norm_num at h <;>
     (simp only [decodeOp]; norm_num) <;>
     first
       | rfl
       | omega
       | (split_ifs <;> first | rfl | omega))

set_option maxHeartbeats 1000000 in
/-- One cycle on the self-jump program returns to the very same state. -/
theorem stepSelfJump (font : Nat → Nat) (env : Env) :
    stepCycle env (initSelfJump font) = .ok (initSelfJump font) := by
  have hw : (initSelfJump font).fetch.1 = 0x1200 := by rfl
  show executeWord env (initSelfJump font).fetch.2 (initSelfJump font).fetch.1 = _
  rw [hw]
  rfl

/-- `Display::flip` toggles the pixel and reports its previous state. -/
theorem flip_eq (g : Grid) (x y : Nat) :
    Display.flip g x y = (xorFlip g x y, g x y) := by
  unfold Display.flip xorFlip
  cases hc : g x y <;> simp [hc]

/-- The spec-side row loop is inert once the column is past the right
edge. -/
theorem drawRowSpec_stop (sprite x0 y : Nat) :
    ∀ fuel n g c, Display.WIDTH ≤ x0 + n →
      drawRowSpec sprite x0 y fuel n g c = (g, c) := by
  intro fuel
  induction fuel with
  | zero => intro n g c h; rfl
  | succ fuel ih =>
    intro n g c h
    rw [drawRowSpec, if_neg]
    · exact ih (n + 1) g c (by omega)
    · rintro ⟨h1, -⟩; omega

/-- The source's row loop (with its break after the rightmost column)
computes the spec-side row loop, with the collision accumulator encoded
as the flag value. -/
theorem drawRowAux_eq_spec (sprite x0 y : Nat) :
    ∀ fuel n g c, x0 + n < Display.WIDTH →
      Interp.drawRowAux sprite x0 y fuel n g (if c then 1 else 0) =
        ((drawRowSpec sprite x0 y fuel n g c).1,
         if (drawRowSpec sprite x0 y fuel n g c).2 then 1 else 0) := by
  intro fuel
  induction fuel with
  | zero => intro n g c h; rfl
  | succ fuel ih =>
    intro n g c h
    simp only [Interp.drawRowAux, drawRowSpec, flip_eq]
    rcases Bool.eq_false_or_eq_true (bits.isSet (7 - n) sprite) with hOn | hOn <;>
      by_cases hbr : x0 + n ≥ Display.WIDTH - 1
    · have hstop : ∀ g' c', drawRowSpec sprite x0 y fuel (n + 1) g' c' = (g', c') :=
        fun g' c' => drawRowSpec_stop _ _ _ _ _ _ _
          (by simp only [Display.WIDTH] at *; omega)
      simp only [hOn, if_true, and_true, if_pos h, if_pos hbr, hstop]
      rcases Bool.eq_false_or_eq_true c with hc | hc <;>
        rcases Bool.eq_false_or_eq_true (g (x0 + n) y) with hcur | hcur <;>
          simp [hc, hcur]
    · have hb2 : x0 + (n + 1) < Display.WIDTH := by
        simp only [Display.WIDTH] at *; omega
      simp only [hOn, if_true, and_true, if_pos h, if_neg hbr]
      have := ih (n + 1) (xorFlip g (x0 + n) y) (c || g (x0 + n) y) hb2
      rcases Bool.eq_false_or_eq_true c with hc | hc <;>
        rcases Bool.eq_false_or_eq_true (g (x0 + n) y) with hcur | hcur <;>
          simp only [hc, hcur] at this ⊢ <;> simpa using this
    · have hstop : ∀ g' c', drawRowSpec sprite x0 y fuel (n + 1) g' c' = (g', c') :=
        fun g' c' => drawRowSpec_stop _ _ _ _ _ _ _
          (by simp only [Display.WIDTH] at *; omega)
      simp [hOn, hbr, hstop]
    · have hb2 : x0 + (n + 1) < Display.WIDTH := by
        simp only [Display.WIDTH] at *; omega
      simp only [hOn, Bool.false_eq_true, if_false, and_false, if_neg hbr]
      exact ih (n + 1) g c hb2

/-- The spec-side rows loop is inert once the row is past the bottom
edge. -/
theorem drawRowsSpec_stop (mem : Nat → Nat) (i x0 y0 : Nat) :
    ∀ fuel idx g c, Display.HEIGHT ≤ y0 + idx →
      drawRowsSpec mem i x0 y0 fuel idx g c = (g, c) := by
  intro fuel
  induction fuel with
  | zero => intro idx g c h; rfl
  | succ fuel ih =>
    intro idx g c h
    rw [drawRowsSpec, if_neg (by omega)]
    exact ih (idx + 1) g c (by omega)

/-- The source's rows loop (with its break after the bottom row) computes
the spec-side rows loop. -/
theorem drawRowsAux_eq_spec (mem : Nat → Nat) (i x0 y0 : Nat) (hx : x0 < Display.WIDTH) :
    ∀ fuel idx g c, y0 + idx < Display.HEIGHT →
      Interp.drawRowsAux mem i x0 y0 fuel idx g (if c then 1 else 0) =
        ((drawRowsSpec mem i x0 y0 fuel idx g c).1,
         if (drawRowsSpec mem i x0 y0 fuel idx g c).2 then 1 else 0) := by
  intro fuel
  induction fuel with
  | zero => intro idx g c h; rfl
  | succ fuel ih =>
    intro idx g c h
    simp only [Interp.drawRowsAux, drawRowsSpec]
    rw [if_pos h, drawRowAux_eq_spec _ _ _ _ _ _ _ (by simpa using hx)]
    by_cases hbr : y0 + idx ≥ Display.HEIGHT - 1
    · rw [if_pos hbr,
        drawRowsSpec_stop mem i x0 y0 fuel (idx + 1) _ _ (by simp only [Display.HEIGHT] at *; omega)]
    · rw [if_neg hbr]
      simpa using ih (idx + 1) _ _ (by simp only [Display.HEIGHT] at *; omega)

/-- `Interpreter::draw_sprite` computes exactly the spec-side drawing
function: the drawn grid is `drawSpriteSpec`'s grid and the flag register
receives `drawSpriteSpec`'s collision flag. -/
theorem draw_sprite_eq_spec (s : Interp) (g : Grid) (vx vy height : Nat) :
    s.draw_sprite g vx vy height =
      ({ s with registers := upd s.registers 0xF (drawSpriteSpec s.memory s.i (s.registers vx) (s.registers vy) height g).2 },
       (drawSpriteSpec s.memory s.i (s.registers vx) (s.registers vy) height g).1) := by
  unfold Interp.draw_sprite drawSpriteSpec
  have h := drawRowsAux_eq_spec s.memory s.i (s.registers vx % Display.WIDTH)
    (s.registers vy % Display.HEIGHT)
    (Nat.mod_lt _ (by norm_num [Display.WIDTH]))
    height 0 g false
    (by simpa using Nat.mod_lt (s.registers vy) (show 0 < Display.HEIGHT by norm_num [Display.HEIGHT]))
  simp only [if_neg (by simp : ¬(false = true))] at h
  simp only [h]

/-- C1 (amended): executing FX1E sets the index register to its previous
value plus the value of register VX (16-bit arithmetic, not masked to 12
bits), and sets VF to 1 when the resulting index exceeds 0x1000 — but
leaves VF unchanged (rather than clearing it) when it does not. -/
theorem claim_C1 (s : Interp) (vx : Nat) (hx : vx < 16) :
    (s.add_to_index vx).i = (s.i + s.registers vx % 256) % 65536 ∧
    (s.add_to_index vx).registers 0xF =
      (if 0x1000 < (s.i + s.registers vx % 256) % 65536 then 1 else s.registers 0xF) := by
  unfold Interp.add_to_index
  by_cases h : 0x1000 < (s.i + s.registers vx % 256) % 65536
  · simp [h, upd]
  · simp [h, upd]

/-- C1 counterexample: with index register 0x0FFE, operand register V0 =
1 and VF currently 1, FX1E yields index 0x0FFF — and VF stays 1, while
the claim demands VF = 0 because 0x0FFF does not exceed 0x1000. -/
theorem claim_C1_counterexample :
    (stC1.add_to_index 0).i = 0x0FFF ∧ (stC1.add_to_index 0).registers 0xF ≠ 0 := by
  decide

/-- C1 witness: index 0x0FFE plus V0 = 5 gives index 0x1003 with VF = 1
(0x1003 exceeds 0x1000). -/
theorem claim_C1_witness :
    (stC1w.add_to_index 0).i = 0x1003 ∧ (stC1w.add_to_index 0).registers 0xF = 1 := by
  have h := claim_C1 stC1w 0 (by decide)
  exact ⟨h.1.trans (by decide), h.2.trans (by decide)⟩

/-- C2 (amended): executing FX29 sets the index register to the font
base address plus the full register value times 5 (computed in wrapping
8-bit arithmetic), without masking the value to its low nibble; for
register values 0x0–0xF this coincides with base + 5 × value. -/
theorem claim_C2 (s : Interp) (vx : Nat) (hx : vx < 16) :
    (s.font_character vx).i = Interp.fontBase + s.registers vx * 5 % 256 ∧
    (s.registers vx < 16 → (s.font_character vx).i = Interp.fontBase + 5 * s.registers vx) := by
  constructor
  · rfl
  · intro hv
    show Interp.fontBase + s.registers vx * 5 % 256 = _
    have : s.registers vx * 5 % 256 = 5 * s.registers vx := by omega
    rw [this]

/-- C2 counterexample: with V0 = 0x1A (low nibble 0xA) FX29 sets the
index register to font base + 130 = 0xD2, not the claim's font base +
5 × 0xA = 0x82. -/
theorem claim_C2_counterexample :
    (stC2.font_character 0).i = 0xD2 ∧
    (stC2.font_character 0).i ≠ Interp.fontBase + 5 * (stC2.registers 0 % 16) := by
  decide

/-- C2 witness: a register value of 0xA yields index register =
font base + 50. -/
theorem claim_C2_witness :
    (stC2w.font_character 0).i = Interp.fontBase + 50 := by
  have h := claim_C2 stC2w 0 (by decide)
  exact (h.2 (by decide)).trans (by decide)

/-- C4: executing 8XY4 with a destination other than the flag register
sets VX to (x + y) mod 256 and VF to 1 exactly when the true sum exceeds
255, else 0 (the claim's add-with-carry semantics; the VF-as-destination
case is claim C10). -/
theorem claim_C4 (s : Interp) (vx vy : Nat) (hx : vx < 16) (hy : vy < 16) (hne : vx ≠ 0xF) :
    (s.add vx vy).registers vx = (s.registers vx + s.registers vy) % 256 ∧
    (s.add vx vy).registers 0xF =
      (if 255 < s.registers vx + s.registers vy then 1 else 0) := by
  unfold Interp.add
  constructor
  · simp [upd, hne]
  · simp [upd]

/-- C4 witness: 250 + 10 gives destination 4 with VF = 1. -/
theorem claim_C4_witness :
    (stC4.add 0 1).registers 0 = 4 ∧ (stC4.add 0 1).registers 0xF = 1 := by
  have h := claim_C4 stC4 0 1 (by decide) (by decide) (by decide)
  exact ⟨h.1.trans (by decide), h.2.trans (by decide)⟩

/-- C6: one timer update decrements the delay counter by exactly 1 when
positive and leaves it at 0 when it is 0, independently likewise for the
sound counter, and never drives either counter below 0 (each result is
bounded by its previous value). -/
theorem claim_C6 (t : Timers) :
    ((Timers.update t).delay = if 0 < t.delay then t.delay - 1 else 0) ∧
    ((Timers.update t).sound = if 0 < t.sound then t.sound - 1 else 0) ∧
    (Timers.update t).delay ≤ t.delay ∧ (Timers.update t).sound ≤ t.sound := by
  unfold Timers.update
  refine ⟨?_, ?_, ?_, ?_⟩ <;> split_ifs <;> simp_all <;> omega

/-- C9: storing registers V0–V3 to memory (FX55), zeroing the register
file, then loading from memory (FX65) restores V0 through V3, for every
register file and every index register within memory bounds. -/
theorem claim_C9 (s : Interp) (hbound : s.i + 4 ≤ Interp.MEMORY_SIZE) :
    ∀ k ≤ 3, (((s.store_to_memory 3).zeroRegs).load_from_memory 3).registers k
      = s.registers k := by
  intro k hk
  simp only [Interp.load_from_memory, Interp.store_to_memory, Interp.zeroRegs]
  rw [if_pos hk, if_pos (show s.i ≤ s.i + k ∧ s.i + k < s.i + (3 + 1) by omega)]
  congr 1
  omega

/-- C9 witness: with i = 0x300 and V2 = 27, the store/zero/load
round-trip restores V2 = 27. -/
theorem claim_C9_witness :
    (((stC9.store_to_memory 3).zeroRegs).load_from_memory 3).registers 2 = 27 := by
  have h := claim_C9 stC9 (by decide) 2 (by decide)
  exact h.trans (by decide)

/-- C10: when VF is the destination register, add (8XY4), shift-left
(8XYE) and shift-right (8XY6) leave the flag value in VF (the flag is
written after the destination), while subtract (8XY5/8XY7) leaves the
wrapped difference in VF and discards the borrow flag (the flag is
written before the destination). -/
theorem claim_C10 (s : Interp) (vy lhs rhs : Nat) (hy : vy < 16) (hl : lhs < 16) (hr : rhs < 16) :
    ((s.add 0xF vy).registers 0xF = if 255 < s.registers 0xF + s.registers vy then 1 else 0) ∧
    ((s.sub 0xF lhs rhs).registers 0xF = Interp.wsub (s.registers lhs) (s.registers rhs)) ∧
    ((s.shift_left 0xF).registers 0xF = if bits.isSet 7 (s.registers 0xF) then 1 else 0) ∧
    ((s.shift_right 0xF).registers 0xF = if bits.isSet 0 (s.registers 0xF) then 1 else 0) := by
  refine ⟨?_, ?_, ?_, ?_⟩ <;>
    simp [Interp.add, Interp.sub, Interp.shift_left, Interp.shift_right, upd]

/-- C10 witness: with VF = 200, V1 = 100, V2 = 5, V3 = 10: add into VF
leaves the carry 1; subtract into VF leaves the wrapped difference
5 − 10 = 251; shift-left of VF = 200 leaves its bit 7 = 1; shift-right
leaves its bit 0 = 0. -/
theorem claim_C10_witness :
    ((stC10.add 0xF 1).registers 0xF = 1) ∧
    ((stC10.sub 0xF 2 3).registers 0xF = 251) ∧
    ((stC10.shift_left 0xF).registers 0xF = 1) ∧
    ((stC10.shift_right 0xF).registers 0xF = 0) := by
  have h := claim_C10 stC10 1 2 3 (by decide) (by decide) (by decide)
  exact ⟨h.1.trans (by decide), h.2.1.trans (by decide),
    h.2.2.1.trans (by decide), h.2.2.2.trans (by decide)⟩

/-- C3: the draw opcode reduces its start coordinates modulo 64 and 32,
XOR-flips each set sprite bit's target pixel (most-significant bit first),
stops a row at the right edge and the rows at the bottom edge with no
mid-sprite wraparound, and ends with VF = 1 exactly when a pixel was
flipped from on to off — stated as `draw_sprite` computing the spec-side
`drawSpriteSpec`; consequently drawing the identical all-set 8×1 sprite
twice at (0, 0) leaves those 8 pixels off with VF = 1 after the second
draw (and VF = 0, all 8 pixels on, after the first). -/
theorem claim_C3 :
    (∀ (s : Interp) (g : Grid) (vx vy height : Nat),
      s.draw_sprite g vx vy height =
        ({ s with registers := upd s.registers 0xF (drawSpriteSpec s.memory s.i (s.registers vx) (s.registers vy) height g).2 },
         (drawSpriteSpec s.memory s.i (s.registers vx) (s.registers vy) height g).1)) ∧
    ((((drawDemo.draw_sprite Display.clear 0 1 1).1).draw_sprite
        (drawDemo.draw_sprite Display.clear 0 1 1).2 0 1 1).1.registers 0xF = 1 ∧
     (∀ n < 8, ((((drawDemo.draw_sprite Display.clear 0 1 1).1).draw_sprite
        (drawDemo.draw_sprite Display.clear 0 1 1).2 0 1 1).2) n 0 = false) ∧
     (drawDemo.draw_sprite Display.clear 0 1 1).1.registers 0xF = 0 ∧
     (∀ n < 8, ((drawDemo.draw_sprite Display.clear 0 1 1).2) n 0 = true)) := by
  exact ⟨draw_sprite_eq_spec, by decide, by decide, by decide, by decide⟩

/-- C5: decoding a 16-bit value into its four nibbles via
`Instruction::from` and recombining the nibble pairs back into two bytes
via `bits::recombine` reproduces the value exactly. -/
theorem claim_C5 (v : Nat) (hv : v < 65536) :
    recombineNibbles (Instruction.nibblesOf v) = v := by
  have hsh : v >>> 8 = v / 256 := by
    rw [Nat.shiftRight_eq_div_pow]
  have hb1 : v / 256 % 256 < 256 := Nat.mod_lt _ (by norm_num)
  have hb2 : v % 256 < 256 := Nat.mod_lt _ (by norm_num)
  simp only [recombineNibbles, Instruction.nibblesOf, toBeBytes, hsh]
  rw [land_hi_div _ hb1, land_lo_mod _ hb1, land_hi_div _ hb2, land_lo_mod _ hb2,
    recombine_eq _ (by omega) _ (by omega), recombine_eq _ (by omega) _ (by omega)]
  all_goals simp only [fromBeBytes]
  all_goals omega

/-- C5 witness: the round trip at the concrete word 0x12AF. -/
theorem claim_C5_witness : recombineNibbles (Instruction.nibblesOf 0x12AF) = 0x12AF :=
  claim_C5 0x12AF (by decide)

/-- C7: with the one-instruction program `jump(0x200)` loaded at 0x200,
every number of fetch–decode–execute cycles returns the initial state
(so the program counter is 0x200 at the start of every cycle) and never
raises an error; the initial program counter is 0x200. -/
theorem claim_C7 (font : Nat → Nat) (env : Env) (n : Nat) :
    runN env n (initSelfJump font) = .ok (initSelfJump font) ∧
    (initSelfJump font).pc = 0x200 := by
  constructor
  · induction n with
    | zero => rfl
    | succ n ih =>
      rw [runN, stepSelfJump font env]
      exact ih
  · rfl

/-- C8: executing a fetched 16-bit word whose four-nibble pattern matches
none of the defined opcode shapes is the fatal unknown-opcode outcome,
surfacing the offending pattern; no successor interpreter state is
produced. -/
theorem claim_C8 (env : Env) (s : Interp) (w : Nat) (hw : w < 65536)
    (hunk : knownShape (Instruction.nibblesOf w) = false) :
    executeWord env s w = .fatal (.unknownOpcode (Instruction.nibblesOf w)) := by
  have hb1 : w >>> 8 % 256 < 256 := Nat.mod_lt _ (by norm_num)
  have ha : Nat.land (w >>> 8 % 256) 0xF0 >>> 4 < 16 := by
    rw [land_hi_div _ hb1]
    omega
  have hnone : decodeOp (Instruction.nibblesOf w) = none :=
    decodeOp_none_of_unknown _ _ _ _ ha hunk
  unfold executeWord
  rw [hnone]

/-- C8 witness: the word 0x8FF8 (an undefined 8XY8 arithmetic shape) is
fatal, surfacing its nibble pattern. -/
theorem claim_C8_witness :
    executeWord envW Interp.new 0x8FF8 =
      .fatal (.unknownOpcode (Instruction.nibblesOf 0x8FF8)) :=
  claim_C8 envW Interp.new 0x8FF8 (by decide) (by decide)

end Etherea
